import Mathlib

/-!
Verification of the catalog build pipeline (`build.py`).

Shallow embedding of the spreadsheet-to-catalog build script of the
Lacteos Buenos Aires repository.  Cell values are modelled by an inductive
type (`CellValue`): a pandas-missing value (`NaN`/`None`), an integer cell,
a numeric (float) cell modelled exactly by a rational, or a text cell.
Prices are rationals; Python floats in the source hold exact values at all
inputs exercised here.

Python string primitives used by the script (`str.upper`, `str.strip`,
substring membership `in`, `len`) are embedded on `List Char` / `String`.
`str.upper` is modelled on the alphabet actually occurring in the script's
keyword tables (ASCII plus the accented Spanish letters); characters outside
that alphabet pass through unchanged.
-/

/-- A spreadsheet cell value as seen through pandas:
`missing` models `NaN`/`None` (`pd.isna` is true exactly here),
`int`/`float` model the numeric cell types, `str` a text cell. -/
inductive CellValue where
  | missing : CellValue
  | int : Int → CellValue
  | float : ℚ → CellValue
  | str : String → CellValue
deriving DecidableEq

/-- Models Python `str.upper` character-wise on ASCII letters and on the
accented Spanish letters occurring in the script's keyword tables. -/
def pyUpperChar (c : Char) : Char :=
  if 'a' ≤ c ∧ c ≤ 'z' then Char.ofNat (c.toNat - 32)
  else if c = 'á' then 'Á'
  else if c = 'é' then 'É'
  else if c = 'í' then 'Í'
  else if c = 'ó' then 'Ó'
  else if c = 'ú' then 'Ú'
  else if c = 'ñ' then 'Ñ'
  else if c = 'ü' then 'Ü'
  else c

/-- Models Python `str.upper`. -/
def pyToUpper (s : String) : String :=
  String.mk (s.data.map pyUpperChar)

/-- Python whitespace (`str.strip` / regex `\s`), ASCII range. -/
def pyIsSpace (c : Char) : Bool :=
  c = ' ' ∨ c = '\t' ∨ c = '\n' ∨ c = '\r' ∨ c = '\x0b' ∨ c = '\x0c'

/-- Models Python `str.strip()`: drop whitespace from both ends. -/
def pyStrip (s : String) : String :=
  String.mk (((s.data.dropWhile pyIsSpace).reverse.dropWhile pyIsSpace).reverse)

/-- `needle.isPrefixOf hay` over `List Char`, then scanned along every
suffix of the haystack: models Python substring membership `needle in hay`. -/
def listContains (needle : List Char) : List Char → Bool
  | [] => needle.isEmpty
  | c :: rest => needle.isPrefixOf (c :: rest) || listContains needle rest

/-- Models Python `needle in hay` for strings. -/
def containsSub (hay needle : String) : Bool :=
  listContains needle.data hay.data

/-- Digit run to a natural number (`"007"` ↦ `7`). -/
def digitsToNat (cs : List Char) : Nat :=
  cs.foldl (fun a c => a * 10 + (c.toNat - 48)) 0

/-- Left-pad a digit string with zeros to the given width. -/
def padZeros (k : Nat) (s : String) : String :=
  String.mk (List.replicate (k - s.length) '0') ++ s

/-- Decimal rendering of a rational, modelling CPython `str()` of a float
holding a decimally-representable value (the only floats that arise from
the spreadsheets handled here); a non-decimal rational falls back to a
fraction rendering (unreachable for float-valued cells). -/
def floatStr (q : ℚ) : String :=
  let sign := if q < 0 then ("-") else ("")
  let n := q.num.natAbs
  let d := q.den
  if d = 1 then sign ++ toString n ++ ".0"
  else
    match (List.range 30).find? (fun k => d ∣ 10 ^ k) with
    | some k =>
        let ip := n / d
        let frac := n % d * 10 ^ k / d
        sign ++ toString ip ++ "." ++ padZeros k (toString frac)
    | none => sign ++ toString n ++ "/" ++ toString d

/-- Models Python `str(value)` on a cell value.  `str(float('nan'))` is
`"nan"`; integer cells render without a decimal point, float cells with
one, text cells are themselves. -/
def cellStr : CellValue → String
  | .missing => "nan"
  | .int n => toString n
  | .float q => floatStr q
  | .str s => s

/-- Models CPython `float(s)` on the character set reachable in
`clean_price` (after cleaning, only digits and periods remain): the parse
succeeds exactly on strings of digits with at most one period and at least
one digit, mirroring `float("7.50")`, `float("5.")`, `float(".5")`
succeeding and `float("")`, `float(".")`, `float("12.345.67")` raising
`ValueError` (mapped to `none`); any other character makes the parse fail. -/
def parseCleaned (cs : List Char) : Option ℚ :=
  if cs.any (fun c => ¬ (c.isDigit ∨ c = '.')) then none
  else if (cs.filter (fun c => c = '.')).length = 0 then
    if cs.isEmpty then none else some (digitsToNat cs)
  else if (cs.filter (fun c => c = '.')).length = 1 then
    let ip := cs.takeWhile (fun c => c ≠ '.')
    let fp := (cs.dropWhile (fun c => c ≠ '.')).tail
    if ip.isEmpty ∧ fp.isEmpty then none
    else some ((digitsToNat ip : ℚ) + (digitsToNat fp : ℚ) / 10 ^ fp.length)
  else none

/-- `clean_price` of `build.py` (lines 35-47): missing (`pd.isna`) cells
yield `0.0`; `int`/`float` cells are cast through `float()` unchanged;
any other value is stringified, every character that is not a digit,
comma or period is removed (`re.sub(r'[^\d.,]', '', ...)`), commas are
replaced by periods, and the result is parsed as a float, with `0.0` on
`ValueError`. -/
def clean_price : CellValue → ℚ
  | .missing => 0
  | .int n => (n : ℚ)
  | .float q => q
  | .str s =>
      let kept := s.data.filter (fun c => c.isDigit ∨ c = ',' ∨ c = '.')
      let cleaned := kept.map (fun c => if c = ',' then '.' else c)
      match parseCleaned cleaned with
      | some q => q
      | none => 0

/-- A product record as built by `process_excel_file` (lines 118-124),
before `main` stamps the category onto it. -/
structure RawProduct where
  code : String
  name : String
  unit : String
  price : ℚ
  brand : String
deriving DecidableEq

/-- The per-row body of the extraction loop of `process_excel_file`
(lines 105-128), for one data row.  `codeCell`/`nameCell` are the row's
cells in the resolved code and name columns; `hasUnit`/`hasPrice` say
whether a unit / price column was resolved, and `unitCell`/`priceCell`
are the row's cells there.  Returns the record appended to `products`,
or `none` when the row is skipped. -/
def extractRow (brand : String) (codeCell nameCell : CellValue)
    (hasUnit : Bool) (unitCell : CellValue)
    (hasPrice : Bool) (priceCell : CellValue) : Option RawProduct :=
  if codeCell = .missing ∨ nameCell = .missing then none
  else if pyStrip (cellStr codeCell) = "" ∨ pyStrip (cellStr nameCell) = "" then none
  else if pyToUpper (cellStr codeCell) = "CÓDIGO" ∨ pyToUpper (cellStr codeCell) = "CODIGO" then
    none
  else
    let name := pyStrip (cellStr nameCell)
    let p : RawProduct :=
      { code := pyStrip (cellStr codeCell)
        name := name
        unit := if hasUnit ∧ unitCell ≠ .missing then pyStrip (cellStr unitCell) else ("")
        price := if hasPrice then clean_price priceCell else 0
        brand := brand }
    if name ≠ "" ∧ name.length > 2 then some p else none

/-- `' '.join(str(v).upper() for v in row.values if pd.notna(v))`
(line 29): the non-missing cells of a row, stringified, uppercased and
joined with single spaces. -/
def sepJoin : List String → String
  | [] => ""
  | [s] => s
  | s :: t :: rest => s ++ " " ++ sepJoin (t :: rest)

/-- The joined uppercase string built for one row in `find_header_row`. -/
def rowJoin (row : List CellValue) : String :=
  sepJoin (row.filterMap fun v =>
    match v with
    | .missing => none
    | v => some (pyToUpper (cellStr v)))

/-- The per-row test of `find_header_row` (line 30):
does the joined string contain `"CÓDIGO"` or `"CODIGO"`? -/
def headerPred (row : List CellValue) : Bool :=
  containsSub (rowJoin row) "CÓDIGO" || containsSub (rowJoin row) "CODIGO"

/-- The scanning loop of `find_header_row`: index (from `i`) of the first
row satisfying `headerPred`, `none` when no row does. -/
def findHeaderAux (i : Nat) : List (List CellValue) → Option Nat
  | [] => none
  | r :: rest => if headerPred r then some i else findHeaderAux (i + 1) rest

/-- `find_header_row` of `build.py` (lines 26-32): the index of the first
row whose joined uppercase cell string contains `"CÓDIGO"` or `"CODIGO"`,
defaulting to row index `0` when no row matches. -/
def find_header_row (rows : List (List CellValue)) : Nat :=
  (findHeaderAux 0 rows).getD 0

/-- The four column variables of `process_excel_file` (lines 75-78). -/
structure ColMap where
  code? : Option String
  name? : Option String
  unit? : Option String
  price? : Option String
deriving DecidableEq

/-- `'CÓDIGO' in col_upper or 'CODIGO' in col_upper` (line 82). -/
def matchCode (c : String) : Bool :=
  containsSub c ("CÓDIGO") || containsSub c ("CODIGO")

/-- `'PRODUCTO' in col_upper or 'NOMBRE' in col_upper` (line 84). -/
def matchName (c : String) : Bool :=
  containsSub c ("PRODUCTO") || containsSub c ("NOMBRE")

/-- `'UNIDAD' in col_upper` (line 86). -/
def matchUnit (c : String) : Bool :=
  containsSub c ("UNIDAD")

/-- `'FINAL' in col_upper or 'P. FINAL' in col_upper` (line 88). -/
def matchFinal (c : String) : Bool :=
  containsSub c ("FINAL") || containsSub c ("P. FINAL")

/-- `'PRECIO' in col.upper()` (line 94). -/
def matchPrecio (c : String) : Bool :=
  containsSub c ("PRECIO")

/-- One iteration of the column loop (lines 80-89): an `if/elif` chain on
`col_upper = col.upper()`, overwriting the role variable on each match. -/
def mapStep (m : ColMap) (col : String) : ColMap :=
  let cu := pyToUpper col
  if matchCode cu then { m with code? := some col }
  else if matchName cu then { m with name? := some col }
  else if matchUnit cu then { m with unit? := some col }
  else if matchFinal cu then { m with price? := some col }
  else m

/-- `df.columns = [str(col).strip().upper() for col in df.columns]`
(line 72). -/
def normalizeCols (cols : List String) : List String :=
  cols.map (fun c => pyToUpper (pyStrip c))

/-- The whole column-resolution phase of `process_excel_file`
(lines 72-96): normalize the labels, run the `if/elif` loop over them,
then, only when no `FINAL` column was found, take the first label
containing `PRECIO` (the fallback loop breaks at its first hit). -/
def mapColumns (cols : List String) : ColMap :=
  let ncols := normalizeCols cols
  let m := ncols.foldl mapStep ⟨none, none, none, none⟩
  if m.price?.isSome then m
  else { m with price? := ncols.find? (fun c => matchPrecio (pyToUpper c)) }

/-- The record-building part of `process_excel_file` (lines 98-131) given
the resolved columns: a data row is a map from column label to cell value
(`row.get(col)`); when `code` or `name` is unresolved the file yields zero
records (line 98-100; a resolved label always contains a keyword, hence is
non-empty, so Python truthiness agrees with `Option.isSome`). -/
def process_file (brand : String) (cols : List String)
    (rows : List (String → CellValue)) : List RawProduct :=
  let m := mapColumns cols
  match m.code?, m.name? with
  | some cc, some nc =>
      rows.filterMap fun row =>
        extractRow brand (row cc) (row nc)
          m.unit?.isSome (match m.unit? with | some uc => row uc | none => .missing)
          m.price?.isSome (match m.price? with | some pc => row pc | none => .missing)
  | _, _ => []

/-- The ordered category table of `categorize_product` (lines 139-209),
transcribed verbatim; Python dicts preserve insertion order, so the list
order is the iteration order. -/
def categoriesTable : List (String × List String) :=
  [ ("Café y Chocolate",
      ["CAFE", "CAFÉ", "NESCAFE", "LUKAFE", "COFFEE",
       "COCOA", "CACAO", "CHOCOLATE", "LUKER", "COBERTURA",
       "MILO", "CAPPUCCINO", "MOKACCINO"]),
    ("Lácteos",
      ["LECHE", "QUESO", "YOGUR", "YOGURT", "CREMA DE LECHE",
       "MANTEQUILLA", "KUMIS", "AREQUIPE", "KLIM", "CONDENSADA",
       "MARGARINA", "MARG.", "LACTEA", "LECHERA"]),
    ("Bebidas",
      ["JUGO", "NECTAR", "REFRESCO", "GASEOSA", "TANG",
       "CLIGHT", "BEBIDA", "WATER", "AGUA", "LIMONADA",
       "NARANJADA", "TE ", "TEA", "TISANA"]),
    ("Congelados",
      ["CONGELAD", "FROZEN", "HELADO", "HIELO", "PAPA FRIT",
       "PAPAS A LA", "NUGGET", "APANADO", "PRECOCID"]),
    ("Enlatados y Conservas",
      ["ATUN", "ATÚN", "SARDINA", "ENLATAD", "CONSERVA",
       "ACEITUNA", "CEREZA", "MARASCHINO", "ALCAPARRA",
       "PEPINILLO", "ENCURTIDO", "CERNIDO", "PULPA"]),
    ("Salsas y Condimentos",
      ["SALSA", "MAYONESA", "MOSTAZA", "KETCHUP", "VINAGRE",
       "CALDO", "SAZON", "SAZÓN", "PIMIENTA", "ESPECIAS",
       "ADOBO", "CURRY", "COMINO", "BBQ"]),
    ("Aceites y Grasas",
      ["ACEITE", "OLIVA", "GIRASOL", "VEGETAL", "CANOLA",
       "MANTECA", "GRASA"]),
    ("Panadería y Repostería",
      ["HARINA", "H.RICAMASA", "LEVADURA", "LEVAPAN",
       "TORTA", "PONQUE", "PREMEZCLA", "POLVO HORNEAR",
       "GELATINA", "GEL SIN SABOR", "FLAN", "NATILLA"]),
    ("Dulces y Confitería",
      ["DULCE", "CARAMELO", "GALLETA", "BOCADILLO",
       "MERMELADA", "MIEL", "AZUCAR", "AZÚCAR", "PANELA",
       "GUAYABA", "AREQUIPE", "MANJAR", "OBLEAS", "COCO ARTESANAL",
       "OREO", "CHIPS AHOY", "CLUB SOCIAL", "FESTIVAL", "NUCITA"]),
    ("Cereales y Granos",
      ["CEREAL", "AVENA", "ZUCARITAS", "CORN FLAKES", "KELLOGG",
       "GRANOLA", "ARROZ", "LENTEJA", "FRIJOL", "GARBANZO",
       "CHOCAPIC", "FITNESS"]),
    ("Carnes y Embutidos",
      ["CARNE", "POLLO", "CERDO", "RES", "JAMON", "JAMÓN",
       "SALCHICHA", "CHORIZO", "TOCINETA", "BACON", "MORTADELA",
       "SALAMI", "HAMBURGUESA"]),
    ("Frutas y Verduras",
      ["FRUTA", "VERDURA", "SETA", "CHAMPIÑON", "CHAMPIÑÓN",
       "HONGO", "PIÑA", "MANGO", "FRESA", "MORA", "DURAZNO",
       "TOMATE", "CEBOLLA", "MAIZ", "MAÍZ", "ARVEJA"]),
    ("Limpieza y Hogar",
      ["DETERGENTE", "DET.", "JABON", "JABÓN", "LIMPIA",
       "LAVALOZA", "DESINFECT", "CLORO", "BLANQUEADOR",
       "SUAVIZANTE", "GRANDIOSO", "POPOURRI", "LAVANDA", "FASSI"]),
    ("Empaques y Desechables",
      ["EMPAQUE", "PAPEL", "WRAP", "CONTENEDOR", "VASO",
       "PLATO", "CUCHARA", "TENEDOR", "SERVILLETA", "BOLSA",
       "ALUMINIO", "FILM", "STRETCH", "DESECHABLE"]) ]

/-- `categorize_product` of `build.py` (lines 134-216): uppercase the
name, walk the table in order, return the first category one of whose
keywords is a substring of the uppercased name, else `"Otros"`. -/
def categorize_product (product_name : String) : String :=
  let name_upper := pyToUpper product_name
  match categoriesTable.find? (fun ck => ck.2.any (fun kw => containsSub name_upper kw)) with
  | some ck => ck.1
  | none => "Otros"

/-- `Path(filename).stem`: the file name with its (last) extension
removed.  Per `pathlib`, the suffix starts at the rightmost `'.'` whose
index `i` satisfies `0 < i < len - 1`; otherwise the name is unchanged. -/
def pyStem (s : String) : String :=
  let cs := s.data
  let k := (cs.reverse.takeWhile (fun c => c ≠ '.')).length
  if k = cs.length then s
  else
    let i := cs.length - 1 - k
    if 0 < i ∧ i < cs.length - 1 then String.mk (cs.take i) else s

/-- `re.sub(r'\s*\d{2,4}$', '', name)` (line 22).  The regex matches a
suffix of whitespace followed by 2-4 digits; with leftmost-then-greedy
semantics this removes: nothing when the trailing digit run has fewer
than 2 digits; the whole digit run together with the maximal whitespace
run before it when it has 2-4 digits; and exactly the last 4 digits when
it has 5 or more (the earliest start position from which `\d{2,4}` can
reach the end of the string). -/
def stripYearSuffix (s : String) : String :=
  let cs := s.data
  let d := (cs.reverse.takeWhile Char.isDigit).length
  if d < 2 then s
  else if 5 ≤ d then String.mk (cs.take (cs.length - 4))
  else
    let w := ((cs.reverse.drop d).takeWhile pyIsSpace).length
    String.mk (cs.take (cs.length - d - w))

/-- `extract_brand_from_filename` of `build.py` (lines 17-23): strip the
extension, strip a trailing year token, trim whitespace. -/
def extract_brand_from_filename (filename : String) : String :=
  pyStrip (stripYearSuffix (pyStem filename))

/-- A catalog record after `main` stamped the category on (line 240). -/
structure Product where
  code : String
  name : String
  unit : String
  price : ℚ
  brand : String
  category : String
deriving DecidableEq

/-- `p['category'] = categorize_product(p['name'])` (line 240). -/
def addCategory (p : RawProduct) : Product :=
  { code := p.code, name := p.name, unit := p.unit, price := p.price,
    brand := p.brand, category := categorize_product p.name }

/-- The sort key comparison of line 245: Python's `list.sort` with
`key=lambda x: (x['brand'], x['name'])` orders records by the tuple
`(brand, name)` under lexicographic string comparison. -/
def prodLE (p q : Product) : Bool :=
  decide (p.brand < q.brand) || (p.brand == q.brand && decide (p.name ≤ q.name))

/-- `sorted(set(l))` for strings (lines 248 and 253): the distinct
elements in ascending order. -/
def pySortedSet (l : List String) : List String :=
  List.mergeSort l.dedup (fun a b => decide (a ≤ b))

/-- The output document of `main` (lines 250-256). -/
structure Catalog where
  products : List Product
  brands : List String
  categories : List String
  total_products : Nat
deriving DecidableEq

/-- The aggregation phase of `main` (lines 234-256) given the per-file
product lists: stamp categories, concatenate, sort by `(brand, name)`
(Python's sort is stable, as is `List.mergeSort`), and emit the catalog
with the sorted distinct brand and category sets (`brands` is accumulated
as a set of every record's brand while looping over the files). -/
def buildCatalog (fileProducts : List (List RawProduct)) : Catalog :=
  let all := (fileProducts.map (List.map addCategory)).flatten
  let sortedProducts := List.mergeSort all prodLE
  { products := sortedProducts
    brands := pySortedSet (all.map (fun p => p.brand))
    categories := pySortedSet (sortedProducts.map (fun p => p.category))
    total_products := sortedProducts.length }

/-- The effective `code` test of the `if/elif` chain at a label. -/
def pcode (c : String) : Bool := matchCode (pyToUpper c)

/-- The effective `name` test of the chain: reached only when the `code`
branch did not fire. -/
def pname (c : String) : Bool := !matchCode (pyToUpper c) && matchName (pyToUpper c)

/-- The effective `unit` test of the chain. -/
def punit (c : String) : Bool :=
  !matchCode (pyToUpper c) && !matchName (pyToUpper c) && matchUnit (pyToUpper c)

/-- The effective `FINAL`-price test of the chain. -/
def pfinal (c : String) : Bool :=
  !matchCode (pyToUpper c) && !matchName (pyToUpper c) && !matchUnit (pyToUpper c) &&
    matchFinal (pyToUpper c)

/-- The fallback `PRECIO` test (line 94). -/
def pprecio (c : String) : Bool := matchPrecio (pyToUpper c)

/-- Left-biased choice on options (`x` if present, else `y`). -/
def optOr : Option String → Option String → Option String
  | some a, _ => some a
  | none, b => b

/-- One step of a "last match wins" scan: the accumulator after seeing
label `c`. -/
def lastStep (p : String → Bool) (acc : Option String) (c : String) : Option String :=
  if p c then some c else acc

/-! ## Helper lemmas -/

theorem isPrefixOf_map (f : Char → Char) :
    ∀ (n h : List Char), n.isPrefixOf h = true → (n.map f).isPrefixOf (h.map f) = true := by
  intro n
  induction n with
  | nil => intro h _; simp [List.isPrefixOf]
  | cons a as ih =>
    intro h hpre
    cases h with
    | nil => simp [List.isPrefixOf] at hpre
    | cons b bs =>
      simp only [List.isPrefixOf, Bool.and_eq_true, beq_iff_eq] at hpre
      simp only [List.map_cons, List.isPrefixOf, Bool.and_eq_true, beq_iff_eq]
      exact ⟨by rw [hpre.1], ih bs hpre.2⟩

theorem listContains_map (f : Char → Char) (n : List Char) (hn : n.map f = n) :
    ∀ h, listContains n h = true → listContains n (h.map f) = true := by
  intro h
  induction h with
  | nil => intro hc; simpa [listContains] using hc
  | cons c rest ih =>
    intro hc
    simp only [listContains, Bool.or_eq_true] at hc
    simp only [List.map_cons, listContains, Bool.or_eq_true]
    rcases hc with hpre | hrest
    · left
      have := isPrefixOf_map f n (c :: rest) hpre
      rwa [hn] at this
    · right; exact ih hrest

/-- Uppercasing the haystack preserves containment of an
uppercase-invariant needle. -/
theorem containsSub_toUpper (s kw : String) (hkw : kw.data.map pyUpperChar = kw.data)
    (h : containsSub s kw = true) : containsSub (pyToUpper s) kw = true :=
  listContains_map pyUpperChar kw.data hkw s.data h

theorem findHeaderAux_none (rows : List (List CellValue))
    (h : ∀ r ∈ rows, headerPred r = false) : ∀ i, findHeaderAux i rows = none := by
  induction rows with
  | nil => intro i; rfl
  | cons r rest ih =>
    intro i
    have hr : headerPred r = false := h r (List.mem_cons_self r rest)
    simp only [findHeaderAux, hr, Bool.false_eq_true, if_false]
    exact ih (fun s hs => h s (List.mem_cons_of_mem r hs)) (i + 1)

theorem findHeaderAux_first (rows : List (List CellValue)) :
    ∀ (k : Nat) (hk : k < rows.length),
      headerPred (rows.get ⟨k, hk⟩) = true →
      (∀ j (hj : j < k), headerPred (rows.get ⟨j, hj.trans hk⟩) = false) →
      ∀ i, findHeaderAux i rows = some (i + k) := by
  induction rows with
  | nil => intro k hk; exact absurd hk (by simp)
  | cons r rest ih =>
    intro k hk hpred hbefore i
    cases k with
    | zero =>
      simp only [List.get] at hpred
      simp [findHeaderAux, hpred]
    | succ k' =>
      have hr : headerPred r = false := hbefore 0 (Nat.succ_pos k')
      simp only [findHeaderAux, hr, Bool.false_eq_true, if_false]
      have hk' : k' < rest.length := Nat.lt_of_succ_lt_succ hk
      have hres := ih k' hk' hpred
        (fun j hj => hbefore (j + 1) (Nat.succ_lt_succ hj)) (i + 1)
      rw [hres]
      congr 1
      omega

theorem optOr_none_right : ∀ x : Option String, optOr x none = x
  | some _ => rfl
  | none => rfl

theorem optOr_assoc : ∀ x y z : Option String, optOr (optOr x y) z = optOr x (optOr y z)
  | some _, _, _ => rfl
  | none, some _, _ => rfl
  | none, none, _ => rfl

theorem getLast?_cons_optOr (a : String) (l : List String) :
    (a :: l).getLast? = optOr l.getLast? (some a) := by
  induction l generalizing a with
  | nil => rfl
  | cons b t ih =>
    rw [List.getLast?_cons_cons, ih b]
    cases t.getLast? <;> rfl

theorem foldl_lastStep (p : String → Bool) (l : List String) :
    ∀ init, l.foldl (lastStep p) init = optOr ((l.filter p).getLast?) init := by
  induction l with
  | nil => intro init; rfl
  | cons a t ih =>
    intro init
    rw [List.foldl_cons, ih]
    by_cases hp : p a = true
    · rw [List.filter_cons_of_pos hp, getLast?_cons_optOr, optOr_assoc]
      have hstep : lastStep p init a = some a := by simp [lastStep, hp]
      rw [hstep]
      rfl
    · rw [List.filter_cons_of_neg (by simp [hp])]
      have hstep : lastStep p init a = init := by simp [lastStep, hp]
      rw [hstep]

theorem mapStep_code (m : ColMap) (c : String) :
    (mapStep m c).code? = lastStep pcode m.code? c := by
  simp only [mapStep, lastStep, pcode]
  by_cases h1 : matchCode (pyToUpper c) = true
  · simp [h1]
  · simp only [h1, Bool.false_eq_true, if_false]
    by_cases h2 : matchName (pyToUpper c) = true
    · simp [h2]
    · simp only [h2, Bool.false_eq_true, if_false]
      by_cases h3 : matchUnit (pyToUpper c) = true
      · simp [h3]
      · simp only [h3, Bool.false_eq_true, if_false]
        by_cases h4 : matchFinal (pyToUpper c) = true <;> simp [h4]

theorem mapStep_name (m : ColMap) (c : String) :
    (mapStep m c).name? = lastStep pname m.name? c := by
  simp only [mapStep, lastStep, pname]
  by_cases h1 : matchCode (pyToUpper c) = true
  · simp [h1]
  · simp only [h1, Bool.false_eq_true, if_false, Bool.not_false, Bool.true_and]
    by_cases h2 : matchName (pyToUpper c) = true
    · simp [h2]
    · simp only [h2, Bool.false_eq_true, if_false]
      by_cases h3 : matchUnit (pyToUpper c) = true
      · simp [h2, h3]
      · simp only [h3, Bool.false_eq_true, if_false]
        by_cases h4 : matchFinal (pyToUpper c) = true <;> simp [h2, h4]

theorem mapStep_unit (m : ColMap) (c : String) :
    (mapStep m c).unit? = lastStep punit m.unit? c := by
  simp only [mapStep, lastStep, punit]
  by_cases h1 : matchCode (pyToUpper c) = true
  · simp [h1]
  · simp only [h1, Bool.false_eq_true, if_false, Bool.not_false, Bool.true_and]
    by_cases h2 : matchName (pyToUpper c) = true
    · simp [h2]
    · simp only [h2, Bool.false_eq_true, if_false, Bool.not_false, Bool.true_and]
      by_cases h3 : matchUnit (pyToUpper c) = true
      · simp [h3]
      · simp only [h3, Bool.false_eq_true, if_false]
        by_cases h4 : matchFinal (pyToUpper c) = true <;> simp [h3, h4]

theorem mapStep_price (m : ColMap) (c : String) :
    (mapStep m c).price? = lastStep pfinal m.price? c := by
  simp only [mapStep, lastStep, pfinal]
  by_cases h1 : matchCode (pyToUpper c) = true
  · simp [h1]
  · simp only [h1, Bool.false_eq_true, if_false, Bool.not_false, Bool.true_and]
    by_cases h2 : matchName (pyToUpper c) = true
    · simp [h2]
    · simp only [h2, Bool.false_eq_true, if_false, Bool.not_false, Bool.true_and]
      by_cases h3 : matchUnit (pyToUpper c) = true
      · simp [h3]
      · simp only [h3, Bool.false_eq_true, if_false, Bool.not_false, Bool.true_and]
        by_cases h4 : matchFinal (pyToUpper c) = true <;> simp [h4]

theorem foldl_mapStep_code (l : List String) :
    ∀ m : ColMap, (l.foldl mapStep m).code? = l.foldl (lastStep pcode) m.code? := by
  induction l with
  | nil => intro m; rfl
  | cons a t ih => intro m; rw [List.foldl_cons, List.foldl_cons, ih, mapStep_code]

theorem foldl_mapStep_name (l : List String) :
    ∀ m : ColMap, (l.foldl mapStep m).name? = l.foldl (lastStep pname) m.name? := by
  induction l with
  | nil => intro m; rfl
  | cons a t ih => intro m; rw [List.foldl_cons, List.foldl_cons, ih, mapStep_name]

theorem foldl_mapStep_unit (l : List String) :
    ∀ m : ColMap, (l.foldl mapStep m).unit? = l.foldl (lastStep punit) m.unit? := by
  induction l with
  | nil => intro m; rfl
  | cons a t ih => intro m; rw [List.foldl_cons, List.foldl_cons, ih, mapStep_unit]

theorem foldl_mapStep_price (l : List String) :
    ∀ m : ColMap, (l.foldl mapStep m).price? = l.foldl (lastStep pfinal) m.price? := by
  induction l with
  | nil => intro m; rfl
  | cons a t ih => intro m; rw [List.foldl_cons, List.foldl_cons, ih, mapStep_price]

theorem mapColumns_code (cols : List String) :
    (mapColumns cols).code? = ((normalizeCols cols).filter pcode).getLast? := by
  simp only [mapColumns]
  split
  · rw [foldl_mapStep_code, foldl_lastStep, optOr_none_right]
  · rw [foldl_mapStep_code, foldl_lastStep, optOr_none_right]

theorem mapColumns_name (cols : List String) :
    (mapColumns cols).name? = ((normalizeCols cols).filter pname).getLast? := by
  simp only [mapColumns]
  split
  · rw [foldl_mapStep_name, foldl_lastStep, optOr_none_right]
  · rw [foldl_mapStep_name, foldl_lastStep, optOr_none_right]

theorem mapColumns_unit (cols : List String) :
    (mapColumns cols).unit? = ((normalizeCols cols).filter punit).getLast? := by
  simp only [mapColumns]
  split
  · rw [foldl_mapStep_unit, foldl_lastStep, optOr_none_right]
  · rw [foldl_mapStep_unit, foldl_lastStep, optOr_none_right]

theorem mapColumns_price (cols : List String) :
    (mapColumns cols).price? =
      optOr (((normalizeCols cols).filter pfinal).getLast?)
        ((normalizeCols cols).find? pprecio) := by
  simp only [mapColumns]
  split
  · rename_i hsome
    rw [foldl_mapStep_price, foldl_lastStep, optOr_none_right] at hsome ⊢
    cases hval : ((normalizeCols cols).filter pfinal).getLast? with
    | some v => rfl
    | none => rw [hval] at hsome; exact absurd hsome (by simp)
  · rename_i hnone
    rw [foldl_mapStep_price, foldl_lastStep, optOr_none_right] at hnone
    have hval : ((normalizeCols cols).filter pfinal).getLast? = none := by
      cases hv : ((normalizeCols cols).filter pfinal).getLast? with
      | none => rfl
      | some v => rw [hv] at hnone; exact absurd rfl hnone
    show (normalizeCols cols).find? (fun c => matchPrecio (pyToUpper c)) =
      optOr (((normalizeCols cols).filter pfinal).getLast?)
        ((normalizeCols cols).find? pprecio)
    rw [hval]
    rfl

theorem prodLE_iff (p q : Product) :
    prodLE p q = true ↔ p.brand < q.brand ∨ (p.brand = q.brand ∧ p.name ≤ q.name) := by
  simp [prodLE, Bool.or_eq_true, Bool.and_eq_true, decide_eq_true_eq, beq_iff_eq]

theorem prodLE_trans (a b c : Product) (h1 : prodLE a b = true) (h2 : prodLE b c = true) :
    prodLE a c = true := by
  rw [prodLE_iff] at h1 h2 ⊢
  rcases h1 with h1 | ⟨h1e, h1n⟩
  · rcases h2 with h2 | ⟨h2e, _⟩
    · exact Or.inl (lt_trans h1 h2)
    · exact Or.inl (h2e ▸ h1)
  · rcases h2 with h2 | ⟨h2e, h2n⟩
    · exact Or.inl (h1e ▸ h2)
    · exact Or.inr ⟨h1e.trans h2e, le_trans h1n h2n⟩

theorem prodLE_total (a b : Product) : (prodLE a b || prodLE b a) = true := by
  rw [Bool.or_eq_true, prodLE_iff, prodLE_iff]
  rcases lt_trichotomy a.brand b.brand with h | h | h
  · exact Or.inl (Or.inl h)
  · rcases le_total a.name b.name with hn | hn
    · exact Or.inl (Or.inr ⟨h, hn⟩)
    · exact Or.inr (Or.inr ⟨h.symm, hn⟩)
  · exact Or.inr (Or.inl h)

theorem strLE_trans (a b c : String) (h1 : decide (a ≤ b) = true)
    (h2 : decide (b ≤ c) = true) : decide (a ≤ c) = true := by
  rw [decide_eq_true_eq] at h1 h2 ⊢
  exact le_trans h1 h2

theorem strLE_total (a b : String) : (decide (a ≤ b) || decide (b ≤ a)) = true := by
  rw [Bool.or_eq_true, decide_eq_true_eq, decide_eq_true_eq]
  exact le_total a b

theorem pySortedSet_sorted (l : List String) : List.Sorted (· ≤ ·) (pySortedSet l) :=
  (List.sorted_mergeSort strLE_trans strLE_total l.dedup).imp
    (fun h => decide_eq_true_eq.mp h)

theorem pySortedSet_nodup (l : List String) : (pySortedSet l).Nodup :=
  (List.mergeSort_perm l.dedup (fun a b => decide (a ≤ b))).symm.nodup (List.nodup_dedup l)

theorem pySortedSet_mem (l : List String) (b : String) : b ∈ pySortedSet l ↔ b ∈ l :=
  ((List.mergeSort_perm l.dedup (fun a b => decide (a ≤ b))).mem_iff).trans List.mem_dedup

/-! ## Claims -/

/-- Claim C3: for every run, the emitted catalog has its products sorted
ascending by the pair `(brand, name)` under plain lexicographic string
comparison, `total_products` equal to the length of `products`, and
`brands`/`categories` equal to the ascending duplicate-free lists of the
distinct brand/category values of the products (sortedness, no
duplicates and the membership equivalence pin those lists down
uniquely). -/
theorem C3_catalog_invariants (fps : List (List RawProduct)) :
    List.Sorted
        (fun p q : Product => p.brand < q.brand ∨ (p.brand = q.brand ∧ p.name ≤ q.name))
        (buildCatalog fps).products
    ∧ (buildCatalog fps).total_products = (buildCatalog fps).products.length
    ∧ List.Sorted (· ≤ ·) (buildCatalog fps).brands
    ∧ (buildCatalog fps).brands.Nodup
    ∧ (∀ b, b ∈ (buildCatalog fps).brands
        ↔ b ∈ (buildCatalog fps).products.map (fun p => p.brand))
    ∧ List.Sorted (· ≤ ·) (buildCatalog fps).categories
    ∧ (buildCatalog fps).categories.Nodup
    ∧ (∀ b, b ∈ (buildCatalog fps).categories
        ↔ b ∈ (buildCatalog fps).products.map (fun p => p.category)) := by
  refine ⟨?_, rfl, pySortedSet_sorted _, pySortedSet_nodup _, ?_, pySortedSet_sorted _,
    pySortedSet_nodup _, ?_⟩
  · exact (List.sorted_mergeSort prodLE_trans prodLE_total
      ((fps.map (List.map addCategory)).flatten)).imp (fun h => (prodLE_iff _ _).mp h)
  · intro b
    refine (pySortedSet_mem _ b).trans ?_
    exact (((List.mergeSort_perm ((fps.map (List.map addCategory)).flatten) prodLE).map
      (fun p => p.brand)).mem_iff).symm
  · intro b
    exact pySortedSet_mem _ b

/-- Counterexample to claim C1: with the label sequence
`["CODIGO A", "CODIGO B"]` both labels match the code keywords, yet the
column resolved for the code role is `"CODIGO B"`, not the earliest
matching label `"CODIGO A"` — each match overwrites the role variable,
so the last matching label wins. -/
theorem C1_counterexample :
    (mapColumns ["CODIGO A", "CODIGO B"]).code? = some ("CODIGO B")
    ∧ (mapColumns ["CODIGO A", "CODIGO B"]).code? ≠ some ("CODIGO A") := by
  decide

/-- Claim C1 as amended: for the `if/elif` roles (code, name, unit,
`FINAL`-price) the column chosen is the LAST label of the normalized
sequence passing that role's effective test, while the `PRECIO` fallback
(used only when no `FINAL` label exists) chooses the FIRST label
containing `PRECIO`. -/
theorem C1_column_mapping (cols : List String) :
    (mapColumns cols).code? = ((normalizeCols cols).filter pcode).getLast?
    ∧ (mapColumns cols).name? = ((normalizeCols cols).filter pname).getLast?
    ∧ (mapColumns cols).unit? = ((normalizeCols cols).filter punit).getLast?
    ∧ (mapColumns cols).price? =
        optOr (((normalizeCols cols).filter pfinal).getLast?)
          ((normalizeCols cols).find? pprecio) :=
  ⟨mapColumns_code cols, mapColumns_name cols, mapColumns_unit cols, mapColumns_price cols⟩

/-- Counterexample to claim C10: the label `"CODIGO PRECIO"` is assigned
to the code role by the `if/elif` chain AND to the price role by the
`PRECIO` fallback loop, so a label can resolve two roles — per-label
exclusivity holds only within the chain, not across the fallback. -/
theorem C10_counterexample :
    (mapColumns ["CODIGO PRECIO", "PRODUCTO"]).code? = some ("CODIGO PRECIO")
    ∧ (mapColumns ["CODIGO PRECIO", "PRODUCTO"]).price? = some ("CODIGO PRECIO") := by
  decide

/-- Claim C10 as amended: within the `if/elif` chain a label matching the
code keywords can never resolve the name role (though the separate
`PRECIO` fallback can additionally assign an already-assigned label to
the price role); consequently, when every name-matching label of a file
also matches the code keywords, the name role stays unresolved and the
file yields zero records. -/
theorem C10_code_shadows_name (brand : String) (cols : List String)
    (rows : List (String → CellValue))
    (h : ((normalizeCols cols).all
        fun c => !matchName (pyToUpper c) || matchCode (pyToUpper c)) = true) :
    (mapColumns cols).name? = none ∧ process_file brand cols rows = [] := by
  have hfilter : (normalizeCols cols).filter pname = [] := by
    rw [List.filter_eq_nil_iff]
    intro c hc
    have hall := (List.all_eq_true.mp h) c hc
    simp only [pname, Bool.and_eq_true, Bool.not_eq_eq_eq_not, Bool.not_true]
    intro hcontra
    rw [Bool.or_eq_true] at hall
    rcases hall with hnm | hcd
    · rw [Bool.not_eq_eq_eq_not, Bool.not_true] at hnm
      rw [hnm] at hcontra
      exact absurd hcontra.2 (by simp)
    · rw [hcd] at hcontra
      exact absurd hcontra.1 (by simp)
  have hname : (mapColumns cols).name? = none := by
    rw [mapColumns_name, hfilter]
    rfl
  refine ⟨hname, ?_⟩
  rcases hc : (mapColumns cols).code? with _ | cc <;>
    simp [process_file, hc, hname]

/-- Witness for C10 (amended) at the single label `"CODIGO PRODUCTO"`,
which matches both the name keywords (`PRODUCTO`) and the code keywords
(`CODIGO`). -/
theorem C10_witness :
    (mapColumns ["CODIGO PRODUCTO"]).name? = none
    ∧ process_file ("B") ["CODIGO PRODUCTO"] [fun _ => CellValue.str ("X")] = [] :=
  C10_code_shadows_name ("B") ["CODIGO PRODUCTO"] [fun _ => CellValue.str ("X")] (by decide)

/-- Claim C6: `find_header_row` scans the rows top to bottom and returns
the index of the first row whose uppercase space-joined non-missing cell
string contains `"CÓDIGO"` or `"CODIGO"` (the `headerPred` test); when no
row matches it returns row index `0`. -/
theorem C6_find_header_row (rows : List (List CellValue)) :
    ((∀ r ∈ rows, headerPred r = false) → find_header_row rows = 0)
    ∧ (∀ (i : Nat) (hi : i < rows.length),
        headerPred (rows.get ⟨i, hi⟩) = true →
        (∀ j (hj : j < i), headerPred (rows.get ⟨j, hj.trans hi⟩) = false) →
        find_header_row rows = i) := by
  constructor
  · intro hnone
    unfold find_header_row
    rw [findHeaderAux_none rows hnone 0]
    rfl
  · intro i hi hpred hbefore
    unfold find_header_row
    rw [findHeaderAux_first rows i hi hpred hbefore 0]
    simp

/-- Witness for C6: the second row of a concrete two-row table is the
first to contain `"CÓDIGO"`, and `find_header_row` returns index `1`. -/
theorem C6_witness :
    find_header_row [[CellValue.str ("titulo")], [CellValue.str ("CÓDIGO"), CellValue.str ("PRODUCTO")]] = 1 :=
  (C6_find_header_row
      [[CellValue.str ("titulo")], [CellValue.str ("CÓDIGO"), CellValue.str ("PRODUCTO")]]).2
    1 (by decide) (by decide)
    (by
      intro j hj
      have hj0 : j = 0 := by omega
      subst hj0
      show headerPred [CellValue.str ("titulo")] = false
      decide)

/-- Claim C2: categorization uppercases the name, walks the fixed ordered
category table and returns the first matching category (`"Otros"` when
none matches); any name containing both `"CAFE"` and `"CHOCOLATE"` as
substrings is categorized `"Café y Chocolate"` — the first category of
the table — never a later one. -/
theorem C2_categorize_first_match (name : String)
    (h1 : containsSub name ("CAFE") = true)
    (h2 : containsSub name ("CHOCOLATE") = true) :
    categorize_product name = "Café y Chocolate" := by
  have hker : ("CAFE" : String).data.map pyUpperChar = ("CAFE" : String).data := by decide
  have hup : containsSub (pyToUpper name) ("CAFE") = true :=
    containsSub_toUpper name ("CAFE") hker h1
  clear h2
  simp [categorize_product, categoriesTable, List.find?_cons, hup]

/-- Witness for C2 at the concrete name `"CAFE CON CHOCOLATE"`. -/
theorem C2_witness : categorize_product ("CAFE CON CHOCOLATE") = "Café y Chocolate" :=
  C2_categorize_first_match ("CAFE CON CHOCOLATE") (by decide) (by decide)

/-- Claim C4: `clean_price` follows the rules in order — missing yields
`0.0`, an already-numeric value is cast directly, any other value is
stringified, stripped of every character that is not a digit, comma or
period, commas become periods and the result is parsed (with `0.0` on
failure); concretely numeric `7500` yields `7500.0`, `""` yields `0.0`,
`"7.50"` yields `7.5`, and `"$ 12.345,67"` yields `0.0`. -/
theorem C4_clean_price_rules :
    clean_price .missing = 0
    ∧ (∀ n : Int, clean_price (.int n) = (n : ℚ))
    ∧ (∀ q : ℚ, clean_price (.float q) = q)
    ∧ (∀ s : String,
        clean_price (.str s) =
          (parseCleaned ((s.data.filter (fun c => c.isDigit ∨ c = ',' ∨ c = '.')).map
            (fun c => if c = ',' then '.' else c))).getD 0)
    ∧ clean_price (.int 7500) = 7500
    ∧ clean_price (.str ("")) = 0
    ∧ clean_price (.str ("7.50")) = 7.5
    ∧ clean_price (.str ("$ 12.345,67")) = 0 := by
  refine ⟨rfl, fun n => rfl, fun q => rfl, fun s => ?_, by decide, by decide, ?_, by decide⟩
  · simp only [clean_price]
    cases parseCleaned ((s.data.filter (fun c => c.isDigit ∨ c = ',' ∨ c = '.')).map
      (fun c => if c = ',' then '.' else c)) <;> rfl
  · have h : clean_price (.str ("7.50")) = ((7 : ℕ) : ℚ) + ((50 : ℕ) : ℚ) / (10 : ℚ) ^ (2 : ℕ) :=
      rfl
    rw [h]; norm_num

/-- Claim C7 (amended reading of "passes through unchanged": the
year-stripping step is a no-op, after which the algorithm's own final
trim still applies): when the stem's trailing digit run is shorter than
2 — so the regex `\s*\d{2,4}$` has no match — the brand is the trimmed
stem; and the two concrete examples of the claim. -/
theorem C7_brand_derivation (filename : String)
    (h : ((pyStem filename).data.reverse.takeWhile Char.isDigit).length < 2) :
    extract_brand_from_filename filename = pyStrip (pyStem filename)
    ∧ extract_brand_from_filename ("LACTEOS DEL VALLE 2025.xlsx") = "LACTEOS DEL VALLE"
    ∧ extract_brand_from_filename ("ALPINA.xls") = "ALPINA" := by
  refine ⟨?_, by decide, by decide⟩
  unfold extract_brand_from_filename stripYearSuffix
  rw [if_pos h]

/-- Witness for C7 at the concrete file name `"ALPINA.xls"`. -/
theorem C7_witness :
    extract_brand_from_filename ("ALPINA.xls") = pyStrip (pyStem ("ALPINA.xls"))
    ∧ extract_brand_from_filename ("LACTEOS DEL VALLE 2025.xlsx") = "LACTEOS DEL VALLE"
    ∧ extract_brand_from_filename ("ALPINA.xls") = "ALPINA" :=
  C7_brand_derivation ("ALPINA.xls") (by decide)

/-- Counterexample to claim C5: a price cell that is an already-numeric
negative value (`-5`) passes straight through `clean_price` and is
emitted into the catalog as a record whose price is negative. -/
theorem C5_counterexample :
    extractRow ("B") (.str ("001")) (.str ("LECHE ENTERA")) false .missing true (.int (-5))
      = some { code := "001", name := "LECHE ENTERA", unit := "", price := -5, brand := "B" }
    ∧ ({ code := "001", name := "LECHE ENTERA", unit := "", price := -5,
          brand := "B" } : RawProduct).price < 0 := by
  decide

/-- Claim C5 as amended: an emitted record's price defaults to `0.0`
when the price cell is absent or unparsable, and is non-negative whenever
the source cell is not already numeric (string cleaning strips any minus
sign); an already-numeric cell passes through with its sign, so only such
a cell can make the price negative. -/
theorem C5_price_nonneg (brand : String) (codeCell nameCell : CellValue)
    (hu : Bool) (uc : CellValue) (hp : Bool) (pc : CellValue) (p : RawProduct)
    (hext : extractRow brand codeCell nameCell hu uc hp pc = some p)
    (hint : ∀ n : Int, pc ≠ .int n) (hfl : ∀ q : ℚ, pc ≠ .float q) :
    0 ≤ p.price := by
  have hprice : p.price = if hp then clean_price pc else 0 := by
    simp only [extractRow] at hext
    split at hext
    · exact absurd hext (by simp)
    · split at hext
      · exact absurd hext (by simp)
      · split at hext
        · exact absurd hext (by simp)
        · split at hext
          · rw [← Option.some_inj.mp hext]
          · exact absurd hext (by simp)
  rw [hprice]
  by_cases h : hp = true
  · rw [if_pos h]
    cases pc with
    | missing => exact le_refl 0
    | int n => exact absurd rfl (hint n)
    | float q => exact absurd rfl (hfl q)
    | str s =>
        simp only [clean_price]
        cases hparse : parseCleaned ((s.data.filter
            (fun c => c.isDigit ∨ c = ',' ∨ c = '.')).map
            (fun c => if c = ',' then '.' else c)) with
        | none => exact le_refl 0
        | some q =>
            simp only [parseCleaned] at hparse
            split at hparse
            · exact absurd hparse (by simp)
            · split at hparse
              · split at hparse
                · exact absurd hparse (by simp)
                · rw [← Option.some_inj.mp hparse]; positivity
              · split at hparse
                · split at hparse
                  · exact absurd hparse (by simp)
                  · rw [← Option.some_inj.mp hparse]; positivity
                · exact absurd hparse (by simp)
  · rw [if_neg h]

/-- Witness for C5 (amended) at a concrete unparsable string cell. -/
theorem C5_witness :
    (0 : ℚ) ≤
      ({ code := "001", name := "LECHE", unit := "", price := 0,
          brand := "B" } : RawProduct).price :=
  C5_price_nonneg ("B") (.str ("001")) (.str ("LECHE")) false .missing true (.str ("$"))
    { code := "001", name := "LECHE", unit := "", price := 0, brand := "B" }
    (by decide) (fun n h => CellValue.noConfusion h) (fun q h => CellValue.noConfusion h)

/-- Counterexample to claim C8: the duplicated-header guard compares the
code cell's uppercased string without trimming, so a row whose code cell
is `" CODIGO"` — whose trimmed uppercase value equals the header literal
`"CODIGO"` — still produces a record. -/
theorem C8_counterexample :
    pyToUpper (pyStrip (" CODIGO")) = "CODIGO"
    ∧ extractRow ("B") (.str (" CODIGO")) (.str ("LECHE ENTERA")) false .missing false .missing
        = some { code := "CODIGO", name := "LECHE ENTERA", unit := "", price := 0,
                  brand := "B" } := by
  decide

/-- Claim C8 as amended: the guard skips a row whenever the code cell's
uppercased (untrimmed) stringified value equals `"CÓDIGO"` or
`"CODIGO"`: every such row yields no record, regardless of the other
cells. -/
theorem C8_header_guard (brand : String) (codeCell nameCell : CellValue)
    (hu : Bool) (uc : CellValue) (hp : Bool) (pc : CellValue)
    (h : pyToUpper (cellStr codeCell) = "CÓDIGO" ∨ pyToUpper (cellStr codeCell) = "CODIGO") :
    extractRow brand codeCell nameCell hu uc hp pc = none := by
  simp only [extractRow]
  split
  · rfl
  · split
    · rfl
    · rfl

/-- Witness for C8 (amended) at a concrete duplicated-header row. -/
theorem C8_witness :
    extractRow ("B") (.str ("CODIGO")) (.str ("LECHE ENTERA")) false .missing false .missing = none :=
  C8_header_guard ("B") (.str ("CODIGO")) (.str ("LECHE ENTERA")) false .missing false .missing
    (Or.inr (by decide))

/-- Claim C9: every emitted record has non-empty (already-trimmed) code
and name with name length strictly greater than 2, and a row whose code
or name cell is missing, trims to empty, or whose trimmed name has
length at most 2, yields no record. -/
theorem C9_emitted_rows (brand : String) (codeCell nameCell : CellValue)
    (hu : Bool) (uc : CellValue) (hp : Bool) (pc : CellValue) :
    (∀ p : RawProduct, extractRow brand codeCell nameCell hu uc hp pc = some p →
        p.code ≠ "" ∧ p.name ≠ "" ∧ p.name.length > 2)
    ∧ (codeCell = .missing ∨ nameCell = .missing
        ∨ pyStrip (cellStr codeCell) = "" ∨ pyStrip (cellStr nameCell) = ""
        ∨ (pyStrip (cellStr nameCell)).length ≤ 2 →
        extractRow brand codeCell nameCell hu uc hp pc = none) := by
  constructor
  · intro p hext
    simp only [extractRow] at hext
    split at hext
    · exact absurd hext (by simp)
    · split at hext
      · exact absurd hext (by simp)
      · split at hext
        · exact absurd hext (by simp)
        · split at hext
          · rename_i hguard1 hguard2 hguard3 hname
            rw [← Option.some_inj.mp hext]
            refine ⟨fun hc => hguard2 (Or.inl hc), hname.1, hname.2⟩
          · exact absurd hext (by simp)
  · intro hskip
    simp only [extractRow]
    split
    · rfl
    · split
      · rfl
      · split
        · rfl
        · rename_i hmiss hempty hheader
          split
          · rename_i hname
            rcases hskip with h | h | h | h | h
            · exact absurd (Or.inl h) hmiss
            · exact absurd (Or.inr h) hmiss
            · exact absurd (Or.inl h) hempty
            · exact absurd h hname.1
            · exact absurd hname.2 (by omega)
          · rfl

/-- Witness for C9: both parts applied at concrete rows — a valid row's
record has non-empty code and name with name longer than 2 characters,
and a row with a missing code cell yields no record. -/
theorem C9_witness :
    (({ code := "001", name := "LECHE", unit := "", price := 0, brand := "B" } : RawProduct).code ≠ ""
      ∧ ({ code := "001", name := "LECHE", unit := "", price := 0, brand := "B" } : RawProduct).name ≠ ""
      ∧ ({ code := "001", name := "LECHE", unit := "", price := 0, brand := "B" } : RawProduct).name.length > 2)
    ∧ extractRow ("B") .missing (.str ("LECHE")) false .missing false .missing = none :=
  ⟨(C9_emitted_rows ("B") (.str ("001")) (.str ("LECHE")) false .missing false .missing).1
      { code := "001", name := "LECHE", unit := "", price := 0, brand := "B" } (by decide),
    (C9_emitted_rows ("B") .missing (.str ("LECHE")) false .missing false .missing).2
      (Or.inl rfl)⟩
